import Mathlib

/-!
Verification development for the FarmAssist repository (src/app.py).

The session controller of app.py is embedded shallowly: Python
str.strip / str.title are modelled over ASCII characters, the Streamlit
session state is a record, each user interaction of main() is an Action,
and one pure step function mirrors the dispatch structure of main().
The hosted LLM (gemini_client.get_gemini_response) is an oracle
parameter returning Except; a Python exception escaping a handler is
the Outcome.raised constructor, a caught one shown via st.error is
Outcome.displayError.
-/

namespace FarmAssist

/-- Python str.isspace over the ASCII whitespace characters relevant to
str.strip: space, tab, newline, carriage return, vertical tab, form feed. -/
def pyIsSpace (c : Char) : Bool :=
  c = ' ' || c = '\t' || c = '\n' || c = '\r' || c = '\x0b' || c = '\x0c'

/-- Python str.strip on a character list: drop whitespace from both ends. -/
def stripList (l : List Char) : List Char :=
  ((l.dropWhile pyIsSpace).reverse.dropWhile pyIsSpace).reverse

/-- Python str.strip. -/
def pyStrip (s : String) : String :=
  String.mk (stripList s.data)

/-- ASCII uppercase conversion, as an explicit table over the 26 lowercase
letters; every other character maps to itself. -/
def pyToUpper (c : Char) : Char :=
  match c with
  | 'a' => 'A' | 'b' => 'B' | 'c' => 'C' | 'd' => 'D' | 'e' => 'E' | 'f' => 'F' | 'g' => 'G'
  | 'h' => 'H' | 'i' => 'I' | 'j' => 'J' | 'k' => 'K' | 'l' => 'L' | 'm' => 'M' | 'n' => 'N'
  | 'o' => 'O' | 'p' => 'P' | 'q' => 'Q' | 'r' => 'R' | 's' => 'S' | 't' => 'T' | 'u' => 'U'
  | 'v' => 'V' | 'w' => 'W' | 'x' => 'X' | 'y' => 'Y' | 'z' => 'Z'
  | c => c

/-- ASCII lowercase conversion, as an explicit table over the 26 uppercase
letters; every other character maps to itself. -/
def pyToLower (c : Char) : Char :=
  match c with
  | 'A' => 'a' | 'B' => 'b' | 'C' => 'c' | 'D' => 'd' | 'E' => 'e' | 'F' => 'f' | 'G' => 'g'
  | 'H' => 'h' | 'I' => 'i' | 'J' => 'j' | 'K' => 'k' | 'L' => 'l' | 'M' => 'm' | 'N' => 'n'
  | 'O' => 'o' | 'P' => 'p' | 'Q' => 'q' | 'R' => 'r' | 'S' => 's' | 'T' => 't' | 'U' => 'u'
  | 'V' => 'v' | 'W' => 'w' | 'X' => 'x' | 'Y' => 'y' | 'Z' => 'z'
  | c => c

/-- Worker for Python str.title: the Bool flag records whether the previous
character was cased (ASCII alphabetic); a cased character starting a word is
uppercased, the rest of a word is lowercased, uncased characters pass through
and end the current word. -/
def titleGo : Bool → List Char → List Char
  | _, [] => []
  | prevCased, c :: cs =>
    if c.isAlpha then
      (if prevCased then pyToLower c else pyToUpper c) :: titleGo true cs
    else
      c :: titleGo false cs

/-- Python str.title (ASCII model). -/
def pyTitle (s : String) : String :=
  String.mk (titleGo false s.data)

/-- One (userMessage, reply) pair of the chat history. -/
abbrev Exchange := String × String

/-- The Streamlit session state fields initialised at app.py lines 36-41. -/
structure SessionState where
  name : String
  region : String
  chat_history : List Exchange
deriving Repr, DecidableEq

/-- The freshly initialised session: name = "", region = "", history = []. -/
def initState : SessionState := ⟨"", "", []⟩

/-- The session is in the Onboarding state exactly when the stored name is
empty: app.py line 114 branches on the truthiness of st.session_state.name. -/
def inOnboarding (s : SessionState) : Prop := s.name = ""

/-- The session is in the Chatting state exactly when the stored name is
non-empty. -/
def inChatting (s : SessionState) : Prop := s.name ≠ ""

/-- The hosted LLM completion call (gemini_client.get_gemini_response),
abstracted as an oracle: ok is a reply string, error is a raised exception
message. -/
abbrev LLM := String → Except String String

/-- The fixed ordered class-name list of app.py lines 26-33. -/
def class_names : List String :=
  ["Cashew anthracnose", "Cashew gumosis", "Cashew healthy", "Cashew leaf miner", "Cashew red rust",
   "Cassava bacterial blight", "Cassava brown spot", "Cassava green mite", "Cassava healthy", "Cassava mosaic",
   "Maize fall armyworm", "Maize grasshoper", "Maize healthy", "Maize leaf beetle", "Maize leaf blight",
   "Maize leaf spot", "Maize streak virus",
   "Tomato healthy", "Tomato leaf blight", "Tomato leaf curl",
   "Tomato septoria leaf spot", "Tomato verticulium wilt"]

/-- Worker for np.argmax: i is the index of the head of the remaining list,
best the index of the running maximum, bv its value; a strictly larger value
replaces the running maximum, so ties keep the earliest index, as np.argmax
does. Probabilities are modelled as rationals. -/
def argmaxGo : Nat → Nat → ℚ → List ℚ → Nat
  | _, best, _, [] => best
  | i, best, bv, x :: xs =>
    if bv < x then argmaxGo (i + 1) i x xs else argmaxGo (i + 1) best bv xs

/-- np.argmax over a prediction vector (0 on the empty vector). -/
def npArgmax : List ℚ → Nat
  | [] => 0
  | x :: xs => argmaxGo 1 0 x xs

/-- class_names[np.argmax(prediction)] of app.py lines 166-168; the model
emits one probability per class so the index is in bounds (theorems carry the
length hypothesis). -/
def labelOf (pred : List ℚ) : String :=
  class_names.getD (npArgmax pred) ""

/-- Modelled from the spec: prompts.build_prompt is not under src/. Per the
spec, it deterministically composes a fixed system framing naming the user
and region, the prior exchanges as alternating turns in chronological order,
and the new message as the final turn; the claims below depend only on it
being a pure function of these four inputs. -/
def build_prompt (name region msg : String) (history : List Exchange) : String :=
  "You are FarmAssist, an agricultural assistant for " ++ name ++ " in " ++ region ++ ".\n"
    ++ String.join (history.map fun e => "User: " ++ e.1 ++ "\nFarmAssist: " ++ e.2 ++ "\n")
    ++ "User: " ++ msg

/-- build_disease_prompt of app.py lines 50-63 (the f-string after its final
.strip()). -/
def build_disease_prompt (disease_label user_name user_region : String) : String :=
  "You are FarmAssist, a trusted agricultural extension officer helping Nigerian farmers like "
    ++ user_name ++ " in " ++ user_region
    ++ ".\n\nA farmer uploaded a crop leaf image. The disease was identified as **"
    ++ disease_label
    ++ "**.\n\nPlease explain:\n- The common symptoms of this disease\n- The likely causes\n- Practical treatment or solution\n\nUse markdown format. Stay warm, helpful, and specific to Nigerian farming conditions."

/-- The four quick-suggestion (button text, canned question) pairs of app.py
lines 193-198. -/
def suggestions : List (String × String) :=
  [("🌱 Best crops for my region", "What are the best crops to grow in my region considering the climate and soil?"),
   ("💧 Irrigation methods", "What are the most effective irrigation methods for small-scale farming in Nigeria?"),
   ("🐛 Pest control strategies", "How can I protect my crops from common pests and diseases?"),
   ("💰 Crop market information", "What are the current market trends and prices for agricultural products?")]

/-- What a call to handle_prompt (app.py lines 87-103) did: its Python return
value, the session state afterwards, how many LLM calls it made, and whether
st.error was shown. -/
structure PromptOutcome where
  returned : Bool
  state : SessionState
  llmCalls : Nat
  errorShown : Bool
deriving Repr, DecidableEq

/-- handle_prompt of app.py lines 87-103: blank prompts return False at once;
otherwise build_prompt + LLM call; on success the Exchange is appended, on an
exception st.error is shown and the state is untouched. -/
def handle_prompt (llm : LLM) (s : SessionState) (prompt : String) : PromptOutcome :=
  if pyStrip prompt = "" then
    ⟨false, s, 0, false⟩
  else
    match llm (build_prompt s.name s.region prompt s.chat_history) with
    | Except.ok reply =>
        ⟨true, { s with chat_history := s.chat_history ++ [(prompt, reply)] }, 1, false⟩
    | Except.error _ => ⟨false, s, 1, true⟩

/-- How one user interaction ends: ok (normal re-render), displayError
(a caught error shown inline, via st.error), or raised (an uncaught Python
exception propagating out of the script run). Each carries the session state
left behind. -/
inductive Outcome where
  | ok (s : SessionState)
  | displayError (s : SessionState)
  | raised (s : SessionState)
deriving Repr, DecidableEq

/-- The session state an outcome leaves behind. -/
def Outcome.state : Outcome → SessionState
  | .ok s => s
  | .displayError s => s
  | .raised s => s

/-- Package a handle_prompt call as an interaction outcome. -/
def promptOutcome (p : PromptOutcome) : Outcome × Nat :=
  (if p.errorShown then Outcome.displayError p.state else Outcome.ok p.state, p.llmCalls)

/-- The user interactions main() dispatches on. onboardSubmit carries the two
raw form fields; submitText the raw text area content; submitImage the
22-entry probability vector model.predict produced for the uploaded image
(the model itself is an external artifact); clickSuggestion the index of the
pressed suggestion button; resetFull the single reset button. -/
inductive Action where
  | onboardSubmit (name region : String)
  | submitText (msg : String)
  | submitImage (pred : List ℚ)
  | clickSuggestion (i : Fin 4)
  | resetFull
deriving DecidableEq

/-- Which interactions the rendered page offers in a given state, following
the branches of main(): the onboarding form only while name is empty
(line 114); the chat form, the uploader and the reset button only in the
chat branch; the suggestion buttons only in the chat branch while the
history is empty (line 188). -/
def enabled (s : SessionState) : Action → Prop
  | .onboardSubmit _ _ => s.name = ""
  | .submitText _ => s.name ≠ ""
  | .submitImage _ => s.name ≠ ""
  | .clickSuggestion _ => s.name ≠ "" ∧ s.chat_history = []
  | .resetFull => s.name ≠ ""

/-- One user interaction of main() (app.py lines 106-204), as a pure step:
the outcome together with the number of LLM calls made.
onboardSubmit: lines 122-129. submitText: lines 150-153 (the form guard
submitted and user_input.strip()) plus handle_prompt. submitImage: lines
159-177 — note the LLM call there sits in no try/except, so a failure is
Outcome.raised. clickSuggestion: lines 199-204. resetFull: lines 182-185,
popping all three keys, after which the init block restores initState. -/
def step (llm : LLM) (s : SessionState) : Action → Outcome × Nat
  | .onboardSubmit name region =>
    if s.name = "" then
      if pyStrip name = "" then
        (Outcome.displayError s, 0)
      else
        (Outcome.ok { name := pyTitle (pyStrip name),
                      region := if pyStrip region = "" then "Nigeria" else pyTitle (pyStrip region),
                      chat_history := s.chat_history }, 0)
    else (Outcome.ok s, 0)
  | .submitText msg =>
    if s.name = "" then (Outcome.ok s, 0)
    else if pyStrip msg = "" then (Outcome.ok s, 0)
    else promptOutcome (handle_prompt llm s msg)
  | .submitImage pred =>
    if s.name = "" then (Outcome.ok s, 0)
    else
      match llm (build_disease_prompt (labelOf pred) s.name s.region) with
      | Except.ok response =>
          (Outcome.ok { s with chat_history :=
              s.chat_history ++ [("(Uploaded leaf image — predicted: " ++ labelOf pred ++ ")", response)] }, 1)
      | Except.error _ => (Outcome.raised s, 1)
  | .clickSuggestion i =>
    if s.name = "" then (Outcome.ok s, 0)
    else if s.chat_history = [] then
      promptOutcome (handle_prompt llm s (suggestions.getD i.val ("", "")).2)
    else (Outcome.ok s, 0)
  | .resetFull =>
    if s.name = "" then (Outcome.ok s, 0) else (Outcome.ok initState, 0)

/-- A run of successful-or-not text submissions: fold step over a list of raw
messages, each interaction continuing from the state the previous one left. -/
def runTexts (llm : LLM) (s : SessionState) : List String → SessionState
  | [] => s
  | m :: ms => runTexts llm ((step llm s (Action.submitText m)).1.state) ms

/-- States the controller can reach from a fresh session, taking only
interactions the rendered page offers; the LLM oracle may differ at every
step. -/
inductive Reachable : SessionState → Prop
  | init : Reachable initState
  | next {s : SessionState} (llm : LLM) (a : Action) :
      Reachable s → enabled s a → Reachable ((step llm s a).1.state)

/-- An RGB image: rows of pixels, each pixel three integer channel values
(0..255); three channels by construction, as Image.open(...).convert("RGB")
guarantees at app.py line 160. -/
structure RGBImage where
  pixels : List (List (ℕ × ℕ × ℕ))
deriving Repr, DecidableEq

/-- Scale one 8-bit RGB pixel by 1/255 into rational [0,1] channels. -/
def scalePixel (p : ℕ × ℕ × ℕ) : ℚ × ℚ × ℚ :=
  ((p.1 : ℚ) / 255, (p.2.1 : ℚ) / 255, (p.2.2 : ℚ) / 255)

/-- preprocess_image of app.py lines 44-47, parameterized by PIL.Image.resize
(an external library call, abstracted as an oracle taking the target width and
height): resize to (128, 128), divide by 255.0, np.expand_dims(axis=0). -/
def preprocess_image (resize : RGBImage → ℕ × ℕ → RGBImage) (img : RGBImage) :
    List (List (List (ℚ × ℚ × ℚ))) :=
  [(resize img (128, 128)).pixels.map (List.map scalePixel)]

/-- A string has no leading and no trailing whitespace. -/
def noEdgeSpace (s : String) : Prop :=
  (∀ c ∈ s.data.head?, pyIsSpace c = false) ∧ (∀ c ∈ s.data.getLast?, pyIsSpace c = false)

/-- The session invariant: whenever the name is set (Chatting), it carries no
leading or trailing whitespace, and the region is non-empty — either the
fallback or the title-cased stripped form of some user input. -/
def Inv (s : SessionState) : Prop :=
  s.name ≠ "" →
    noEdgeSpace s.name ∧ s.region ≠ "" ∧
    (s.region = "Nigeria" ∨ ∃ r : String, s.region = pyTitle (pyStrip r))

/-- An oracle on which every LLM call raises. -/
def llmFail : LLM := fun _ => Except.error "boom"

/-- An oracle on which every LLM call returns the same reply. -/
def llmEcho : LLM := fun _ => Except.ok "reply"

/-- A concrete Chatting session with empty history. -/
def sAda : SessionState := ⟨"Ada", "Lagos", []⟩

/-- A concrete Chatting session with one prior Exchange. -/
def sBusy : SessionState := ⟨"Ada", "Lagos", [("q", "a")]⟩

/-- A concrete 22-entry prediction vector peaking at index 2. -/
def pred0 : List ℚ :=
  [0, 0, 1, 0, 0, 0, 0, 0, 0, 0, 0, 0, 0, 0, 0, 0, 0, 0, 0, 0, 0, 0]

/-- A resize oracle that returns a constant 128 by 128 image. -/
def resizeConst : RGBImage → ℕ × ℕ → RGBImage :=
  fun _ wh => ⟨List.replicate wh.2 (List.replicate wh.1 (10, 20, 30))⟩

/-- A concrete 1 by 1 input image. -/
def img0 : RGBImage := ⟨[[(255, 0, 7)]]⟩

theorem pyIsSpace_pyToUpper (c : Char) : pyIsSpace (pyToUpper c) = pyIsSpace c := by
  unfold pyToUpper
  split <;> rfl

theorem pyIsSpace_pyToLower (c : Char) : pyIsSpace (pyToLower c) = pyIsSpace c := by
  unfold pyToLower
  split <;> rfl

theorem titleGo_spaceMap (l : List Char) : ∀ b, (titleGo b l).map pyIsSpace = l.map pyIsSpace := by
  induction l with
  | nil => intro b; rfl
  | cons c cs ih =>
    intro b
    by_cases hc : c.isAlpha
    · cases b <;>
        simp [titleGo, hc, ih, pyIsSpace_pyToUpper, pyIsSpace_pyToLower]
    · simp [titleGo, hc, ih]

theorem titleGo_ne_nil (b : Bool) (l : List Char) (h : l ≠ []) : titleGo b l ≠ [] := by
  cases l with
  | nil => exact absurd rfl h
  | cons c cs => by_cases hc : c.isAlpha <;> simp [titleGo, hc]

theorem pyTitle_ne_empty (s : String) (h : s ≠ "") : pyTitle s ≠ "" := by
  intro hempty
  apply h
  have hdata : titleGo false s.data = [] := congrArg String.data hempty
  have : s.data = [] := by
    by_contra hne
    exact titleGo_ne_nil false s.data hne hdata
  cases s
  simp_all

theorem head_dropWhile_not {α : Type} (p : α → Bool) (l : List α) :
    ∀ c ∈ (List.dropWhile p l).head?, p c = false := by
  induction l with
  | nil => simp
  | cons x xs ih =>
    rw [List.dropWhile_cons]
    by_cases h : p x = true
    · simpa [h] using ih
    · simp_all

theorem stripList_head (l : List Char) :
    ∀ c ∈ (stripList l).head?, pyIsSpace c = false := by
  intro c hc
  unfold stripList at hc
  rw [List.head?_reverse] at hc
  set A := l.dropWhile pyIsSpace with hA
  set B := A.reverse.dropWhile pyIsSpace with hB
  obtain ⟨t, ht⟩ : B <:+ A.reverse := List.dropWhile_suffix pyIsSpace
  have hBA : A.reverse.getLast? = some c := by
    rw [← ht, List.getLast?_append, hc]
    rfl
  rw [List.getLast?_reverse] at hBA
  exact head_dropWhile_not pyIsSpace l c hBA

theorem stripList_getLast (l : List Char) :
    ∀ c ∈ (stripList l).getLast?, pyIsSpace c = false := by
  intro c hc
  unfold stripList at hc
  rw [List.getLast?_reverse] at hc
  exact head_dropWhile_not pyIsSpace _ c hc

theorem head_of_spaceMap {l₁ l₂ : List Char}
    (h : l₁.map pyIsSpace = l₂.map pyIsSpace)
    (h₂ : ∀ c ∈ l₂.head?, pyIsSpace c = false) :
    ∀ c ∈ l₁.head?, pyIsSpace c = false := by
  intro c hc
  have hmap : Option.map pyIsSpace l₁.head? = Option.map pyIsSpace l₂.head? := by
    rw [← List.head?_map, ← List.head?_map, h]
  rw [hc] at hmap
  cases h₂' : l₂.head? with
  | none => rw [h₂'] at hmap; exact absurd hmap (by simp)
  | some d =>
    rw [h₂'] at hmap
    simp only [Option.map_some'] at hmap
    rw [Option.some_inj] at hmap
    rw [hmap]
    exact h₂ d h₂'

theorem getLast_of_spaceMap {l₁ l₂ : List Char}
    (h : l₁.map pyIsSpace = l₂.map pyIsSpace)
    (h₂ : ∀ c ∈ l₂.getLast?, pyIsSpace c = false) :
    ∀ c ∈ l₁.getLast?, pyIsSpace c = false := by
  intro c hc
  have hmap : Option.map pyIsSpace l₁.getLast? = Option.map pyIsSpace l₂.getLast? := by
    rw [← List.getLast?_map, ← List.getLast?_map, h]
  rw [hc] at hmap
  cases h₂' : l₂.getLast? with
  | none => rw [h₂'] at hmap; exact absurd hmap (by simp)
  | some d =>
    rw [h₂'] at hmap
    simp only [Option.map_some'] at hmap
    rw [Option.some_inj] at hmap
    rw [hmap]
    exact h₂ d h₂'

theorem noEdgeSpace_title_strip (s : String) : noEdgeSpace (pyTitle (pyStrip s)) := by
  constructor
  · exact head_of_spaceMap (titleGo_spaceMap (stripList s.data) false) (stripList_head s.data)
  · exact getLast_of_spaceMap (titleGo_spaceMap (stripList s.data) false) (stripList_getLast s.data)

theorem promptOutcome_state (p : PromptOutcome) : (promptOutcome p).1.state = p.state := by
  unfold promptOutcome
  split <;> rfl

theorem promptOutcome_not_raised (p : PromptOutcome) (t : SessionState) :
    (promptOutcome p).1 ≠ Outcome.raised t := by
  unfold promptOutcome
  split <;> simp

theorem handle_prompt_name_region (llm : LLM) (s : SessionState) (prompt : String) :
    (handle_prompt llm s prompt).state.name = s.name ∧
    (handle_prompt llm s prompt).state.region = s.region := by
  unfold handle_prompt
  split
  · exact ⟨rfl, rfl⟩
  · split <;> exact ⟨rfl, rfl⟩

theorem handle_prompt_hist (llm : LLM) (s : SessionState) (prompt : String) :
    ∃ t, (handle_prompt llm s prompt).state.chat_history = s.chat_history ++ t := by
  unfold handle_prompt
  split
  · exact ⟨[], (List.append_nil _).symm⟩
  · split
    · exact ⟨_, rfl⟩
    · exact ⟨[], (List.append_nil _).symm⟩

theorem step_hist_extend (llm : LLM) (s : SessionState) (a : Action)
    (h : a ≠ Action.resetFull) :
    ∃ t, ((step llm s a).1.state).chat_history = s.chat_history ++ t := by
  cases a with
  | onboardSubmit n r =>
    by_cases h1 : s.name = ""
    · by_cases h2 : pyStrip n = ""
      · exact ⟨[], by simp [step, h1, h2, Outcome.state]⟩
      · exact ⟨[], by simp [step, h1, h2, Outcome.state]⟩
    · exact ⟨[], by simp [step, h1, Outcome.state]⟩
  | submitText msg =>
    by_cases h1 : s.name = ""
    · exact ⟨[], by simp [step, h1, Outcome.state]⟩
    · by_cases h2 : pyStrip msg = ""
      · exact ⟨[], by simp [step, h1, h2, Outcome.state]⟩
      · obtain ⟨t, ht⟩ := handle_prompt_hist llm s msg
        refine ⟨t, ?_⟩
        simp only [step, h1, h2, if_neg, if_pos, ite_false, ite_true]
        rw [promptOutcome_state]
        exact ht
  | submitImage pred =>
    by_cases h1 : s.name = ""
    · exact ⟨[], by simp [step, h1, Outcome.state]⟩
    · cases hllm : llm (build_disease_prompt (labelOf pred) s.name s.region) with
      | ok resp =>
        exact ⟨[("(Uploaded leaf image — predicted: " ++ labelOf pred ++ ")", resp)],
          by simp [step, h1, hllm, Outcome.state]⟩
      | error e => exact ⟨[], by simp [step, h1, hllm, Outcome.state]⟩
  | clickSuggestion i =>
    by_cases h1 : s.name = ""
    · exact ⟨[], by simp [step, h1, Outcome.state]⟩
    · by_cases h2 : s.chat_history = []
      · obtain ⟨t, ht⟩ := handle_prompt_hist llm s (suggestions.getD i.val ("", "")).2
        refine ⟨t, ?_⟩
        simp only [step]
        rw [if_neg h1, if_pos h2, promptOutcome_state]
        exact ht
      · exact ⟨[], by simp [step, h1, h2, Outcome.state]⟩
  | resetFull => exact absurd rfl h

theorem step_submit_name_region (llm : LLM) (s : SessionState) (a : Action)
    (h1 : ∀ n r, a ≠ Action.onboardSubmit n r) (h2 : a ≠ Action.resetFull) :
    ((step llm s a).1.state).name = s.name ∧ ((step llm s a).1.state).region = s.region := by
  cases a with
  | onboardSubmit n r => exact absurd rfl (h1 n r)
  | submitText msg =>
    by_cases hn : s.name = ""
    · simp [step, hn, Outcome.state]
    · by_cases hm : pyStrip msg = ""
      · simp [step, hn, hm, Outcome.state]
      · simp only [step, hn, hm, if_neg, if_pos, ite_false, ite_true]
        rw [promptOutcome_state]
        exact handle_prompt_name_region llm s msg
  | submitImage pred =>
    by_cases hn : s.name = ""
    · simp [step, hn, Outcome.state]
    · cases hllm : llm (build_disease_prompt (labelOf pred) s.name s.region) with
      | ok resp => simp [step, hn, hllm, Outcome.state]
      | error e => simp [step, hn, hllm, Outcome.state]
  | clickSuggestion i =>
    by_cases hn : s.name = ""
    · simp [step, hn, Outcome.state]
    · by_cases hh : s.chat_history = []
      · simp only [step, hn, hh, if_neg, if_pos, ite_false, ite_true]
        rw [promptOutcome_state]
        exact handle_prompt_name_region llm s _
      · simp [step, hn, hh, Outcome.state]
  | resetFull => exact absurd rfl h2

theorem Inv_congr {s s' : SessionState} (hn : s'.name = s.name) (hr : s'.region = s.region)
    (h : Inv s) : Inv s' := by
  unfold Inv at *
  rw [hn, hr]
  exact h

theorem step_onboard_ok (llm : LLM) (s : SessionState) (n r : String)
    (h1 : s.name = "") (h2 : pyStrip n ≠ "") :
    step llm s (Action.onboardSubmit n r) =
      (Outcome.ok { name := pyTitle (pyStrip n),
                    region := if pyStrip r = "" then "Nigeria" else pyTitle (pyStrip r),
                    chat_history := s.chat_history }, 0) := by
  simp [step, h1, h2]

theorem step_Inv (llm : LLM) (s : SessionState) (a : Action) (hInv : Inv s) :
    Inv ((step llm s a).1.state) := by
  cases a with
  | onboardSubmit n r =>
    by_cases h1 : s.name = ""
    · by_cases h2 : pyStrip n = ""
      · simpa [step, h1, h2, Outcome.state] using hInv
      · rw [step_onboard_ok llm s n r h1 h2]
        intro _
        refine ⟨noEdgeSpace_title_strip n, ?_⟩
        by_cases h3 : pyStrip r = ""
        · rw [if_pos h3]
          exact ⟨(by decide : ("Nigeria" : String) ≠ ""), Or.inl rfl⟩
        · rw [if_neg h3]
          exact ⟨pyTitle_ne_empty _ h3, Or.inr ⟨r, rfl⟩⟩
    · simpa [step, h1, Outcome.state] using hInv
  | submitText msg =>
    obtain ⟨hn, hr⟩ := step_submit_name_region llm s (Action.submitText msg)
      (by intro n r h; cases h) (by intro h; cases h)
    exact Inv_congr hn hr hInv
  | submitImage pred =>
    obtain ⟨hn, hr⟩ := step_submit_name_region llm s (Action.submitImage pred)
      (by intro n r h; cases h) (by intro h; cases h)
    exact Inv_congr hn hr hInv
  | clickSuggestion i =>
    obtain ⟨hn, hr⟩ := step_submit_name_region llm s (Action.clickSuggestion i)
      (by intro n r h; cases h) (by intro h; cases h)
    exact Inv_congr hn hr hInv
  | resetFull =>
    by_cases h1 : s.name = ""
    · simpa [step, h1, Outcome.state] using hInv
    · simp only [step, h1, if_neg, ite_false]
      intro h
      exact absurd rfl h

theorem argmaxGo_spec (xs : List ℚ) : ∀ (i best : ℕ) (bv : ℚ),
    (argmaxGo i best bv xs = best ∧ ∀ j < xs.length, xs.getD j 0 ≤ bv) ∨
    (∃ k, k < xs.length ∧ argmaxGo i best bv xs = i + k ∧ bv ≤ xs.getD k 0 ∧
      ∀ j < xs.length, xs.getD j 0 ≤ xs.getD k 0) := by
  induction xs with
  | nil =>
    intro i best bv
    left
    exact ⟨rfl, by simp⟩
  | cons x xs ih =>
    intro i best bv
    by_cases hx : bv < x
    · rcases ih (i + 1) i x with ⟨h1, h2⟩ | ⟨k, hk, hres, hxv, hmax⟩
      · right
        refine ⟨0, by simp, ?_, le_of_lt hx, ?_⟩
        · rw [argmaxGo, if_pos hx, h1]
          omega
        · intro j hj
          cases j with
          | zero => simp
          | succ j =>
            rw [List.getD_cons_succ, List.getD_cons_zero]
            exact h2 j (by simpa using hj)
      · right
        refine ⟨k + 1, by simpa using hk, ?_, ?_, ?_⟩
        · rw [argmaxGo, if_pos hx, hres]
          omega
        · rw [List.getD_cons_succ]
          exact le_trans (le_of_lt hx) hxv
        · intro j hj
          cases j with
          | zero =>
            rw [List.getD_cons_succ, List.getD_cons_zero]
            exact hxv
          | succ j =>
            rw [List.getD_cons_succ, List.getD_cons_succ]
            exact hmax j (by simpa using hj)
    · rcases ih (i + 1) best bv with ⟨h1, h2⟩ | ⟨k, hk, hres, hxv, hmax⟩
      · left
        refine ⟨?_, ?_⟩
        · rw [argmaxGo, if_neg hx, h1]
        · intro j hj
          cases j with
          | zero =>
            rw [List.getD_cons_zero]
            exact le_of_not_lt hx
          | succ j =>
            rw [List.getD_cons_succ]
            exact h2 j (by simpa using hj)
      · right
        refine ⟨k + 1, by simpa using hk, ?_, ?_, ?_⟩
        · rw [argmaxGo, if_neg hx, hres]
          omega
        · rw [List.getD_cons_succ]
          exact hxv
        · intro j hj
          cases j with
          | zero =>
            rw [List.getD_cons_succ, List.getD_cons_zero]
            exact le_trans (le_of_not_lt hx) hxv
          | succ j =>
            rw [List.getD_cons_succ, List.getD_cons_succ]
            exact hmax j (by simpa using hj)

theorem npArgmax_spec (l : List ℚ) (h : l ≠ []) :
    npArgmax l < l.length ∧ ∀ j < l.length, l.getD j 0 ≤ l.getD (npArgmax l) 0 := by
  cases l with
  | nil => exact absurd rfl h
  | cons x xs =>
    rcases argmaxGo_spec xs 1 0 x with ⟨h1, h2⟩ | ⟨k, hk, hres, hxv, hmax⟩
    · have heq : npArgmax (x :: xs) = 0 := h1
      constructor
      · rw [heq]
        simp
      · intro j hj
        rw [heq, List.getD_cons_zero]
        cases j with
        | zero => simp
        | succ j =>
          rw [List.getD_cons_succ]
          exact h2 j (by simpa using hj)
    · have heq : npArgmax (x :: xs) = k + 1 := by
        show argmaxGo 1 0 x xs = k + 1
        omega
      constructor
      · rw [heq]
        simpa using hk
      · intro j hj
        rw [heq, List.getD_cons_succ]
        cases j with
        | zero =>
          rw [List.getD_cons_zero]
          exact hxv
        | succ j =>
          rw [List.getD_cons_succ]
          exact hmax j (by simpa using hj)

theorem step_submitText_ok (llm : LLM) (s : SessionState) (msg reply : String)
    (hname : s.name ≠ "") (hmsg : pyStrip msg ≠ "")
    (hllm : llm (build_prompt s.name s.region msg s.chat_history) = Except.ok reply) :
    step llm s (Action.submitText msg) =
      (Outcome.ok { s with chat_history := s.chat_history ++ [(msg, reply)] }, 1) := by
  simp only [step]
  rw [if_neg hname, if_neg hmsg]
  unfold handle_prompt
  rw [if_neg hmsg, hllm]
  rfl

theorem step_submitText_err (llm : LLM) (s : SessionState) (msg e : String)
    (hname : s.name ≠ "") (hmsg : pyStrip msg ≠ "")
    (hllm : llm (build_prompt s.name s.region msg s.chat_history) = Except.error e) :
    step llm s (Action.submitText msg) = (Outcome.displayError s, 1) := by
  simp only [step]
  rw [if_neg hname, if_neg hmsg]
  unfold handle_prompt
  rw [if_neg hmsg, hllm]
  rfl

theorem suggestion_nonblank : ∀ i : Fin 4, pyStrip (suggestions.getD i.val ("", "")).2 ≠ "" := by
  decide

theorem step_suggestion_err (llm : LLM) (s : SessionState) (i : Fin 4) (e : String)
    (hname : s.name ≠ "") (hempty : s.chat_history = [])
    (hllm : llm (build_prompt s.name s.region (suggestions.getD i.val ("", "")).2 s.chat_history)
      = Except.error e) :
    step llm s (Action.clickSuggestion i) = (Outcome.displayError s, 1) := by
  simp only [step]
  rw [if_neg hname, if_pos hempty]
  unfold handle_prompt
  rw [if_neg (suggestion_nonblank i), hllm]
  rfl

theorem step_image_err (llm : LLM) (s : SessionState) (pred : List ℚ) (e : String)
    (hname : s.name ≠ "")
    (hllm : llm (build_disease_prompt (labelOf pred) s.name s.region) = Except.error e) :
    step llm s (Action.submitImage pred) = (Outcome.raised s, 1) := by
  simp only [step]
  rw [if_neg hname, hllm]

theorem step_reset (llm : LLM) (s : SessionState) (hname : s.name ≠ "") :
    step llm s Action.resetFull = (Outcome.ok initState, 0) := by
  simp only [step]
  rw [if_neg hname]

/-- C3: for every 22-entry classifier output vector, the reported label is the
entry of the fixed ordered 22-element class-name list at the index of maximum
predicted probability, with no confidence thresholding (every vector gets a
label, however small its maximum); the mapping is a pure function, hence the
same on every call, and index 2 yields "Cashew healthy". -/
theorem claim_C3 :
    class_names.length = 22 ∧
    class_names.getD 2 "" = "Cashew healthy" ∧
    ∀ pred : List ℚ, pred.length = 22 →
      labelOf pred = class_names.getD (npArgmax pred) "" ∧
      npArgmax pred < 22 ∧
      ∀ j < 22, pred.getD j 0 ≤ pred.getD (npArgmax pred) 0 := by
  refine ⟨rfl, rfl, ?_⟩
  intro pred hlen
  have hne : pred ≠ [] := by
    intro h
    rw [h] at hlen
    cases hlen
  obtain ⟨hlt, hmax⟩ := npArgmax_spec pred hne
  rw [hlen] at hlt hmax
  exact ⟨rfl, hlt, hmax⟩

theorem claim_C3_witness :
    labelOf pred0 = class_names.getD (npArgmax pred0) "" ∧
    npArgmax pred0 < 22 ∧
    ∀ j < 22, pred0.getD j 0 ≤ pred0.getD (npArgmax pred0) 0 :=
  claim_C3.2.2 pred0 rfl

/-- C4: submitting onboarding with an identity whose stripped form is
non-empty moves the session from Onboarding to Chatting, stores the identity
stripped and title-cased, stores the region stripped and title-cased when its
stripped form is non-blank, and otherwise the fallback "Nigeria", which is not
the empty string. -/
theorem claim_C4 (llm : LLM) (s : SessionState) (n r : String)
    (hon : inOnboarding s) (hne : pyStrip n ≠ "") :
    ∃ st : SessionState,
      step llm s (Action.onboardSubmit n r) = (Outcome.ok st, 0) ∧
      inChatting st ∧
      st.name = pyTitle (pyStrip n) ∧
      (pyStrip r ≠ "" → st.region = pyTitle (pyStrip r)) ∧
      (pyStrip r = "" → st.region = "Nigeria" ∧ st.region ≠ "") := by
  refine ⟨_, step_onboard_ok llm s n r hon hne, ?_, rfl, ?_, ?_⟩
  · exact pyTitle_ne_empty _ hne
  · intro h3
    exact if_neg h3
  · intro h3
    constructor
    · exact if_pos h3
    · show (if pyStrip r = "" then "Nigeria" else pyTitle (pyStrip r)) ≠ ""
      rw [if_pos h3]
      decide

theorem claim_C4_witness :
    ∃ st : SessionState,
      step llmEcho initState (Action.onboardSubmit "  ada OBI " "  lagos ") = (Outcome.ok st, 0) ∧
      inChatting st ∧
      st.name = pyTitle (pyStrip "  ada OBI ") ∧
      (pyStrip "  lagos " ≠ "" → st.region = pyTitle (pyStrip "  lagos ")) ∧
      (pyStrip "  lagos " = "" → st.region = "Nigeria" ∧ st.region ≠ "") :=
  claim_C4 llmEcho initState "  ada OBI " "  lagos " rfl (by decide)

/-- C6: submitting onboarding with an identity that is empty or whitespace
only surfaces a validation error and changes nothing: the outcome is a
display-only error carrying the very same session state, and the session is
still in Onboarding. -/
theorem claim_C6 (llm : LLM) (s : SessionState) (n r : String)
    (hon : inOnboarding s) (hblank : pyStrip n = "") :
    step llm s (Action.onboardSubmit n r) = (Outcome.displayError s, 0) ∧
    inOnboarding ((step llm s (Action.onboardSubmit n r)).1.state) := by
  have h : step llm s (Action.onboardSubmit n r) = (Outcome.displayError s, 0) := by
    simp only [step]
    rw [if_pos (show s.name = "" from hon), if_pos hblank]
  refine ⟨h, ?_⟩
  rw [h]
  exact hon

theorem claim_C6_witness :
    step llmFail initState (Action.onboardSubmit "   " "Lagos") = (Outcome.displayError initState, 0) ∧
    inOnboarding ((step llmFail initState (Action.onboardSubmit "   " "Lagos")).1.state) :=
  claim_C6 llmFail initState "   " "Lagos" rfl (by decide)

/-- C7: submitting text whose stripped form is empty is a no-op in any state:
the outcome is ok with the identical session state (history unchanged, no
Exchange appended) and the LLM call count is zero. -/
theorem claim_C7 (llm : LLM) (s : SessionState) (msg : String)
    (hblank : pyStrip msg = "") :
    step llm s (Action.submitText msg) = (Outcome.ok s, 0) := by
  simp only [step]
  by_cases hname : s.name = ""
  · rw [if_pos hname]
  · rw [if_neg hname, if_pos hblank]

theorem claim_C7_witness :
    step llmFail sAda (Action.submitText "   ") = (Outcome.ok sAda, 0) :=
  claim_C7 llmFail sAda "   " (by decide)

theorem runTexts_spec (llm : LLM) (msgs : List String)
    (hok : ∀ p, ∃ reply, llm p = Except.ok reply) :
    ∀ s : SessionState, s.name ≠ "" → (∀ m ∈ msgs, pyStrip m ≠ "") →
      (runTexts llm s msgs).chat_history.length = s.chat_history.length + msgs.length ∧
      (runTexts llm s msgs).chat_history.map Prod.fst
        = s.chat_history.map Prod.fst ++ msgs := by
  induction msgs with
  | nil =>
    intro s _ _
    simp [runTexts]
  | cons m ms ih =>
    intro s hname hmsgs
    obtain ⟨reply, hr⟩ := hok (build_prompt s.name s.region m s.chat_history)
    have hstep := step_submitText_ok llm s m reply hname (hmsgs m (by simp)) hr
    rw [runTexts, hstep]
    have hred : ((Outcome.ok { s with chat_history := s.chat_history ++ [(m, reply)] }, 1).1.state)
        = { s with chat_history := s.chat_history ++ [(m, reply)] } := rfl
    rw [hred]
    have hih := ih { s with chat_history := s.chat_history ++ [(m, reply)] } hname
      (fun x hx => hmsgs x (List.mem_cons_of_mem _ hx))
    constructor
    · rw [hih.1]
      show (s.chat_history ++ [(m, reply)]).length + ms.length
        = s.chat_history.length + (m :: ms).length
      simp only [List.length_append, List.length_cons, List.length_nil]
      omega
    · rw [hih.2]
      simp

/-- C1 counterexample: with an LLM oracle that raises on every call, the
image-submission path from a concrete Chatting session ends as an uncaught
exception (Outcome.raised), not a display-only error — refuting the claim
that for every submission path an LLM failure is caught and never propagates
as an uncaught exception. -/
theorem claim_C1_counterexample :
    (step llmFail sAda (Action.submitImage pred0)).1 = Outcome.raised sAda ∧
    (step llmFail sAda (Action.submitImage pred0)).1 ≠ Outcome.displayError sAda := by
  refine ⟨rfl, ?_⟩
  intro h
  rw [(rfl : (step llmFail sAda (Action.submitImage pred0)).1 = Outcome.raised sAda)] at h
  exact Outcome.noConfusion h

/-- C1 (amended): when every LLM call fails, a text submission (non-blank)
and a suggestion click are caught and converted to a display-only error with
the session state unchanged — no Exchange appended, the same input can be
retried; an image submission also appends no Exchange and leaves the state
unchanged, but its failure propagates as an uncaught exception instead of a
display-only error. -/
theorem claim_C1_amended (llm : LLM) (s : SessionState) (msg e : String)
    (i : Fin 4) (pred : List ℚ)
    (hname : inChatting s) (hfail : ∀ p, llm p = Except.error e) :
    (pyStrip msg ≠ "" →
      step llm s (Action.submitText msg) = (Outcome.displayError s, 1)) ∧
    (s.chat_history = [] →
      step llm s (Action.clickSuggestion i) = (Outcome.displayError s, 1)) ∧
    step llm s (Action.submitImage pred) = (Outcome.raised s, 1) := by
  refine ⟨?_, ?_, ?_⟩
  · intro hmsg
    exact step_submitText_err llm s msg e hname hmsg (hfail _)
  · intro hemp
    exact step_suggestion_err llm s i e hname hemp (hfail _)
  · exact step_image_err llm s pred e hname (hfail _)

theorem claim_C1_witness :
    (pyStrip "hello" ≠ "" →
      step llmFail sAda (Action.submitText "hello") = (Outcome.displayError sAda, 1)) ∧
    (sAda.chat_history = [] →
      step llmFail sAda (Action.clickSuggestion 0) = (Outcome.displayError sAda, 1)) ∧
    step llmFail sAda (Action.submitImage pred0) = (Outcome.raised sAda, 1) :=
  claim_C1_amended llmFail sAda "hello" "boom" 0 pred0 (by decide : sAda.name ≠ "") (fun _ => rfl)

/-- C2 counterexample: at a concrete Chatting session with non-empty history,
the sole reset the controller offers does clear the history, but it also
empties the stored identity and region — refuting the claim that a
history-only reset exists which leaves identity and region unchanged. -/
theorem claim_C2_counterexample :
    ((step llmFail sBusy Action.resetFull).1.state).chat_history = [] ∧
    ((step llmFail sBusy Action.resetFull).1.state).name = "" ∧
    ((step llmFail sBusy Action.resetFull).1.state).region = "" ∧
    sBusy.name = "Ada" ∧ sBusy.region = "Lagos" :=
  ⟨rfl, rfl, rfl, rfl, rfl⟩

/-- C2 (amended): the controller provides a single reset operation, not two:
from any Chatting state it yields identity unset, region unset and history
empty (back to Onboarding); there is no history-only reset — every action
other than resetFull leaves a non-empty history non-empty. -/
theorem claim_C2_amended (llm : LLM) (s : SessionState) (a : Action)
    (hname : inChatting s) :
    step llm s Action.resetFull = (Outcome.ok initState, 0) ∧
    initState.name = "" ∧ initState.region = "" ∧ initState.chat_history = [] ∧
    (a ≠ Action.resetFull → s.chat_history ≠ [] →
      ((step llm s a).1.state).chat_history ≠ []) := by
  refine ⟨step_reset llm s hname, rfl, rfl, rfl, ?_⟩
  intro ha hne
  obtain ⟨t, ht⟩ := step_hist_extend llm s a ha
  rw [ht]
  simp [hne]

theorem claim_C2_witness :
    step llmFail sBusy Action.resetFull = (Outcome.ok initState, 0) ∧
    initState.name = "" ∧ initState.region = "" ∧ initState.chat_history = [] ∧
    (Action.submitText "x" ≠ Action.resetFull → sBusy.chat_history ≠ [] →
      ((step llmFail sBusy (Action.submitText "x")).1.state).chat_history ≠ []) :=
  claim_C2_amended llmFail sBusy (Action.submitText "x") (by decide : sBusy.name ≠ "")

/-- C5: with an always-successful LLM oracle and non-blank messages, each text
submission appends exactly one Exchange at the end of the history: over any
run, history length grows by exactly the number of submissions, and the user
messages of the final history are the prior ones followed by the submitted
messages in submission order; moreover no action other than resetFull ever
removes, reorders or deduplicates existing Exchanges — the prior history is
always an unchanged initial segment of the new one. -/
theorem claim_C5 (llm : LLM) (s : SessionState) (msgs : List String) (a : Action)
    (hok : ∀ p, ∃ reply, llm p = Except.ok reply)
    (hmsgs : ∀ m ∈ msgs, pyStrip m ≠ "") (hname : inChatting s) :
    ((runTexts llm s msgs).chat_history.length = s.chat_history.length + msgs.length ∧
     (runTexts llm s msgs).chat_history.map Prod.fst
       = s.chat_history.map Prod.fst ++ msgs) ∧
    (a ≠ Action.resetFull →
      ∃ t, ((step llm s a).1.state).chat_history = s.chat_history ++ t) :=
  ⟨runTexts_spec llm msgs hok s hname hmsgs, fun ha => step_hist_extend llm s a ha⟩

theorem claim_C5_witness :
    ((runTexts llmEcho sAda ["hi", "bye"]).chat_history.length
        = sAda.chat_history.length + (["hi", "bye"] : List String).length ∧
     (runTexts llmEcho sAda ["hi", "bye"]).chat_history.map Prod.fst
        = sAda.chat_history.map Prod.fst ++ ["hi", "bye"]) ∧
    (Action.submitText "x" ≠ Action.resetFull →
      ∃ t, ((step llmEcho sAda (Action.submitText "x")).1.state).chat_history
        = sAda.chat_history ++ t) :=
  claim_C5 llmEcho sAda ["hi", "bye"] (Action.submitText "x")
    (fun _ => ⟨"reply", rfl⟩) (by decide) (by decide : sAda.name ≠ "")

theorem scalePixel_unit (p : ℕ × ℕ × ℕ)
    (h1 : p.1 ≤ 255) (h2 : p.2.1 ≤ 255) (h3 : p.2.2 ≤ 255) :
    0 ≤ (scalePixel p).1 ∧ (scalePixel p).1 ≤ 1 ∧
    0 ≤ (scalePixel p).2.1 ∧ (scalePixel p).2.1 ≤ 1 ∧
    0 ≤ (scalePixel p).2.2 ∧ (scalePixel p).2.2 ≤ 1 := by
  unfold scalePixel
  refine ⟨by positivity,
          div_le_one_of_le₀ (by exact_mod_cast h1) (by norm_num),
          by positivity,
          div_le_one_of_le₀ (by exact_mod_cast h2) (by norm_num),
          by positivity,
          div_le_one_of_le₀ (by exact_mod_cast h3) (by norm_num)⟩

/-- C8: the classifier preprocessing is the fixed pipeline: the three-channel
RGB image (the pixel type has exactly three channels, as the decode step
convert("RGB") guarantees) is resized to the fixed square 128 by 128
resolution, every channel value is scaled into [0,1] by dividing by 255, and
the result is wrapped as a single-item batch (leading axis of size 1). -/
theorem claim_C8 (resize : RGBImage → ℕ × ℕ → RGBImage) (img : RGBImage)
    (hlen : (resize img (128, 128)).pixels.length = 128)
    (hrows : ∀ row ∈ (resize img (128, 128)).pixels, row.length = 128)
    (hrange : ∀ row ∈ (resize img (128, 128)).pixels, ∀ p ∈ row,
      p.1 ≤ 255 ∧ p.2.1 ≤ 255 ∧ p.2.2 ≤ 255) :
    (preprocess_image resize img).length = 1 ∧
    preprocess_image resize img
      = [(resize img (128, 128)).pixels.map (List.map scalePixel)] ∧
    ∀ grid ∈ preprocess_image resize img,
      grid.length = 128 ∧
      (∀ row ∈ grid, row.length = 128) ∧
      ∀ row ∈ grid, ∀ q ∈ row,
        0 ≤ q.1 ∧ q.1 ≤ 1 ∧ 0 ≤ q.2.1 ∧ q.2.1 ≤ 1 ∧ 0 ≤ q.2.2 ∧ q.2.2 ≤ 1 := by
  refine ⟨rfl, rfl, ?_⟩
  intro grid hgrid
  have hg : grid = (resize img (128, 128)).pixels.map (List.map scalePixel) := by
    simpa [preprocess_image] using hgrid
  subst hg
  refine ⟨by rw [List.length_map]; exact hlen, ?_, ?_⟩
  · intro row hrow
    obtain ⟨row0, hrow0, rfl⟩ := List.mem_map.mp hrow
    rw [List.length_map]
    exact hrows row0 hrow0
  · intro row hrow q hq
    obtain ⟨row0, hrow0, rfl⟩ := List.mem_map.mp hrow
    obtain ⟨p, hp, rfl⟩ := List.mem_map.mp hq
    obtain ⟨h1, h2, h3⟩ := hrange row0 hrow0 p hp
    exact scalePixel_unit p h1 h2 h3

theorem claim_C8_witness :
    (preprocess_image resizeConst img0).length = 1 :=
  (claim_C8 resizeConst img0
    (by simp [resizeConst])
    (fun row hrow => by
      rw [List.eq_of_mem_replicate hrow]
      simp)
    (fun row hrow => by
      rw [List.eq_of_mem_replicate hrow]
      intro p hp
      rw [List.eq_of_mem_replicate hp]
      refine ⟨by norm_num, by norm_num, by norm_num⟩)).1

/-- C9: every reachable session satisfies the invariant: whenever the session
is in Chatting (identity non-empty), the stored identity has no leading or
trailing whitespace and the stored region is non-empty — the fallback
"Nigeria" or the title-cased stripped form of some user input; every action
other than resetFull preserves the invariant, and Chatting versus Onboarding
is determined exactly by whether the identity is non-empty. -/
theorem claim_C9 :
    (∀ s : SessionState, Reachable s → Inv s) ∧
    (∀ (llm : LLM) (s : SessionState) (a : Action), a ≠ Action.resetFull →
      Inv s → Inv ((step llm s a).1.state)) ∧
    (∀ s : SessionState, inChatting s ↔ ¬ inOnboarding s) := by
  refine ⟨?_, fun llm s a _ h => step_Inv llm s a h, fun s => Iff.rfl⟩
  intro s h
  induction h with
  | init => intro hc; exact absurd rfl hc
  | next llm a hr he ih => exact step_Inv llm _ a ih

theorem claim_C9_witness : Inv initState :=
  claim_C9.1 initState Reachable.init

/-- C10: the quick-suggestion triggers are offered only while the history is
empty: clickSuggestion is enabled only when the chat history is empty, so a
suggestion Exchange can only be the first of the session; and once the
history is non-empty, no action other than resetFull yields a state where a
suggestion is enabled — only a reset that empties the history can. -/
theorem claim_C10 :
    (∀ (s : SessionState) (i : Fin 4),
      enabled s (Action.clickSuggestion i) → s.chat_history = []) ∧
    (∀ (llm : LLM) (s : SessionState) (a : Action) (i : Fin 4),
      a ≠ Action.resetFull → s.chat_history ≠ [] →
      ¬ enabled ((step llm s a).1.state) (Action.clickSuggestion i)) := by
  constructor
  · intro s i h
    exact h.2
  · intro llm s a i ha hne h
    obtain ⟨t, ht⟩ := step_hist_extend llm s a ha
    have h2 := h.2
    rw [ht] at h2
    rcases List.append_eq_nil.mp h2 with ⟨h3, _⟩
    exact hne h3

theorem claim_C10_witness :
    ¬ enabled ((step llmFail sBusy (Action.submitText "x")).1.state)
      (Action.clickSuggestion 0) :=
  claim_C10.2 llmFail sBusy (Action.submitText "x") 0 (by decide) (by decide)

end FarmAssist

